import Mathlib

/-!
# netbox_ipam_aggregate: the resource handlers of the Netbox Terraform provider

A shallow embedding of `plugin/providers/netbox/resource_netbox_ipam_aggregate.go`.

* Go integers are mathematical integers (`Int`) with explicit two's-complement wrapping at
  every narrowing conversion.  The width of Go's `int` is a property of the build target
  (32 or 64 bits, `strconv.IntSize`), so it is a parameter (`IntSize`) of everything that
  converts to `int`.
* `strconv.Itoa` / `strconv.Atoi` are the Go standard library routines, embedded from their
  loops (`formatBits`, `ParseUint`, `ParseInt`).
* `schema.ResourceData` is the record of the identifier and of the three schema fields;
  `Get` reads a field, `Set` / `SetId` write one.
* The generated Netbox client is an arbitrary transition function on an arbitrary remote
  state.  A handler body is a tree of client calls (`Remote`) that has no client in scope;
  `Remote.run` is the one place where the client is applied, and it records every
  application in a trace.
-/

namespace Netbox

/-! ## Machine integers -/

/-- Width of Go's `int` on the build target (`strconv.IntSize`). -/
inductive IntSize where
  | b32
  | b64
deriving DecidableEq, Repr

/-- Number of bits of `int`. -/
def IntSize.bits : IntSize → Nat
  | .b32 => 32
  | .b64 => 64

/-- Two's-complement reading of the low `bits` bits of `v` (a Go integer conversion to a
signed type of that width). -/
def wrapSigned (bits : Nat) (v : Int) : Int :=
  let m := v % (2 : Int) ^ bits
  if m < (2 : Int) ^ (bits - 1) then m else m - (2 : Int) ^ bits

/-- Go conversion `int(v)`. -/
def toInt (sz : IntSize) (v : Int) : Int := wrapSigned sz.bits v

/-- Go conversion `int64(v)` of an `int` value `v`: a widening conversion, which keeps the
value. -/
def int64OfInt (v : Int) : Int := v

/-- The value `v` is representable as an `int64`. -/
def isInt64 (v : Int) : Prop := -(2 : Int) ^ 63 ≤ v ∧ v < (2 : Int) ^ 63

instance (v : Int) : Decidable (isInt64 v) := by unfold isInt64; infer_instance

/-- The value `v` is representable as an `int` of the build target. -/
def fitsInt (sz : IntSize) (v : Int) : Prop :=
  -(2 : Int) ^ (sz.bits - 1) ≤ v ∧ v < (2 : Int) ^ (sz.bits - 1)

instance (sz : IntSize) (v : Int) : Decidable (fitsInt sz v) := by unfold fitsInt; infer_instance

/-- Equality of Go results (value or error) is decidable. -/
instance instDecidableEqExcept {ε α : Type} [DecidableEq ε] [DecidableEq α] :
    DecidableEq (Except ε α)
  | .ok a, .ok b => if h : a = b then isTrue (by rw [h]) else isFalse (by intro h2; cases h2; exact h rfl)
  | .error a, .error b =>
    if h : a = b then isTrue (by rw [h]) else isFalse (by intro h2; cases h2; exact h rfl)
  | .ok _, .error _ => isFalse (by intro h; cases h)
  | .error _, .ok _ => isFalse (by intro h; cases h)

/-! ## strconv -/

/-- The `Err` field of a `*strconv.NumError`. -/
inductive NumErrKind where
  | ErrSyntax
  | ErrRange
deriving DecidableEq, Repr

/-- Go's `strconv.NumError`. -/
structure NumError where
  Func : String
  Num : String
  Err : NumErrKind
deriving DecidableEq, Repr

/-- The byte `'0' + d`. -/
def digitChar (d : Nat) : Char := Char.ofNat (48 + d)

/-- The loop of `strconv.formatBits` in base 10: while `u >= 10` emit `u % 10` in front of
the buffer and divide, then emit the last digit.  `fuel` bounds the iterations; a `uint64`
has at most 20 decimal digits. -/
def formatAux : Nat → Nat → List Char → List Char
  | 0, _, acc => acc
  | fuel + 1, u, acc =>
    if u < 10 then digitChar u :: acc
    else formatAux fuel (u / 10) (digitChar (u % 10) :: acc)

/-- Decimal digits of an unsigned 64-bit magnitude. -/
def formatBits (u : Nat) : List Char := formatAux 20 u []

/-- Go's `strconv.FormatInt(i, 10)`: a minus sign for negatives, then the magnitude. -/
def FormatInt (i : Int) : String :=
  if i < 0 then String.mk ('-' :: formatBits i.natAbs) else String.mk (formatBits i.natAbs)

/-- Go's `strconv.Itoa(i)`, which is `FormatInt(int64(i), 10)`. -/
def Itoa (i : Int) : String := FormatInt i

/-- The digit loop of `strconv.ParseUint(s, 10, bitSize)`: `maxVal = 1<<bitSize - 1`, the
cutoff `maxUint64/10 + 1` is the first `n` for which `n*10` overflows a `uint64`. -/
def parseUintLoop (maxVal : Nat) : Nat → List Char → Except NumErrKind Nat
  | n, [] => .ok n
  | n, c :: cs =>
    if 48 ≤ c.toNat ∧ c.toNat ≤ 57 then
      if n ≥ (2 ^ 64 - 1) / 10 + 1 then .error .ErrRange
      else
        let n10 := n * 10
        let n1 := (n10 + (c.toNat - 48)) % 2 ^ 64
        if n1 < n10 ∨ n1 > maxVal then .error .ErrRange
        else parseUintLoop maxVal n1 cs
    else .error .ErrSyntax

/-- Go's `strconv.ParseUint(s, 10, bitSize)` on the bytes of `s`. -/
def ParseUint (s : List Char) (bitSize : Nat) : Except NumErrKind Nat :=
  if s = [] then .error .ErrSyntax else parseUintLoop (2 ^ bitSize - 1) 0 s

/-- Go's `strconv.ParseInt(s, 10, bitSize)`: pick off a leading sign, convert the rest
unsigned, then check the signed range. -/
def ParseInt (s : String) (bitSize : Nat) : Except NumError Int :=
  match s.data with
  | [] => .error ⟨"ParseInt", s, .ErrSyntax⟩
  | c :: rest =>
    let neg : Bool := c = '-'
    let body := if c = '+' ∨ c = '-' then rest else c :: rest
    match ParseUint body bitSize with
    | .error .ErrSyntax => .error ⟨"ParseInt", s, .ErrSyntax⟩
    | r =>
      let un : Nat := match r with
        | .ok v => v
        | .error _ => 2 ^ bitSize - 1
      let cutoff : Nat := 2 ^ (bitSize - 1)
      if !neg ∧ un ≥ cutoff then .error ⟨"ParseInt", s, .ErrRange⟩
      else if neg ∧ un > cutoff then .error ⟨"ParseInt", s, .ErrRange⟩
      else .ok (if neg then -(un : Int) else (un : Int))

/-- Go's `strconv.Atoi(s)`: `ParseInt(s, 10, 0)` converted to `int`, the error renamed. -/
def Atoi (sz : IntSize) (s : String) : Except NumError Int :=
  match ParseInt s sz.bits with
  | .error e => .error { e with Func := "Atoi" }
  | .ok v => .ok (toInt sz v)

/-! ## Netbox models and client -/

/-- The fields of `models.WritableAggregate` that the handlers fill in.  `Prefix` and `Rir`
are pointers in Go and are always given the address of a local variable. -/
structure WritableAggregate where
  Prefix : String
  Description : String
  Rir : Int
  Tags : List String
deriving DecidableEq, Repr

/-- The registry reference nested in an aggregate (`models.NestedRIR`), by its `ID`. -/
structure NestedRIR where
  ID : Int
deriving DecidableEq, Repr

/-- The fields of `models.Aggregate` that the handlers read.  `Prefix` and `Rir` are
pointers in Go: `none` is the nil pointer. -/
structure Aggregate where
  ID : Int
  Prefix : Option String
  Rir : Option NestedRIR
  Description : String
deriving DecidableEq, Repr

/-- A call issued to the remote API, with its request parameters. -/
inductive Call where
  | create (data : WritableAggregate)
  | read (id : Int)
  | update (id : Int) (data : WritableAggregate)
  | delete (id : Int)
deriving DecidableEq, Repr

/-- The `Ipam` part of the Netbox client taken from `meta`: each call maps the request and
the remote state `σ` to a payload or an error of type `ε`, and to the next remote state.
A response without error carries its payload (the generated client allocates it before
decoding the body). -/
structure Client (σ ε : Type) where
  IpamAggregatesCreate : WritableAggregate → σ → Except ε Aggregate × σ
  IpamAggregatesRead : Int → σ → Except ε Aggregate × σ
  IpamAggregatesUpdate : Int → WritableAggregate → σ → Except ε Aggregate × σ
  IpamAggregatesDelete : Int → σ → Except ε Unit × σ

/-! ## schema.ResourceData -/

/-- The local state of one resource instance: the identifier (`d.Id()`, empty when unset)
and the three schema fields `"prefix"`, `"rir_id"` (a Go `int`) and `"description"`, as
`d.Get` returns them. -/
structure ResourceData where
  id : String
  pfx : String
  rir_id : Int
  description : String
deriving DecidableEq, Repr

/-- The call `d.SetId(v)`. -/
def ResourceData.SetId (d : ResourceData) (v : String) : ResourceData := { d with id := v }

/-- The call `d.Set("prefix", p)` with a `*string`: `Set` stores what the pointer points to;
after a nil pointer the field reads as the empty string. -/
def ResourceData.SetPrefix (d : ResourceData) (p : Option String) : ResourceData :=
  { d with pfx := p.getD "" }

/-- The call `d.Set("rir_id", v)` with an `int64`: the field is a Go `int`, so the value is
converted to `int`. -/
def ResourceData.SetRirID (sz : IntSize) (d : ResourceData) (v : Int) : ResourceData :=
  { d with rir_id := toInt sz v }

/-- The call `d.Set("description", v)`. -/
def ResourceData.SetDescription (d : ResourceData) (v : String) : ResourceData :=
  { d with description := v }

/-! ## The handlers -/

/-- A Go `error` value a handler can return. -/
inductive GoError (ε : Type) where
  | num (e : NumError)
  | remote (e : ε)
deriving DecidableEq, Repr

/-- How a handler invocation ends: `return nil`, `return err`, or a run-time panic on a nil
pointer dereference. -/
inductive Ret (ε : Type) where
  | nil
  | err (e : GoError ε)
  | nilDeref
deriving DecidableEq, Repr

/-- What a handler acts on: the local resource data, the remote state, and the trace of
remote calls issued so far. -/
structure World (σ : Type) where
  d : ResourceData
  remote : σ
  calls : List Call

/-- A handler body: a computation whose only access to the remote is one of the four client
calls, each followed by what the handler does with the answer.  The client itself is not in
scope of a handler body, so every use of the remote is a node of this tree. -/
inductive Remote (ε α : Type) where
  | ret (a : α)
  | IpamAggregatesCreate (data : WritableAggregate) (k : Except ε Aggregate → Remote ε α)
  | IpamAggregatesRead (id : Int) (k : Except ε Aggregate → Remote ε α)
  | IpamAggregatesUpdate (id : Int) (data : WritableAggregate)
      (k : Except ε Aggregate → Remote ε α)
  | IpamAggregatesDelete (id : Int) (k : Except ε Unit → Remote ε α)

/-- Running a handler body against the client `c`: each call node applies the client once to
the node's parameters and the current remote state, records that application at the end of
the trace, and continues with the client's answer on the remote state the client left. -/
def Remote.run {σ ε α : Type} (c : Client σ ε) : Remote ε α → σ → List Call → α × σ × List Call
  | .ret a, s, t => (a, s, t)
  | .IpamAggregatesCreate data k, s, t =>
    Remote.run c (k (c.IpamAggregatesCreate data s).1) (c.IpamAggregatesCreate data s).2
      (t ++ [Call.create data])
  | .IpamAggregatesRead id k, s, t =>
    Remote.run c (k (c.IpamAggregatesRead id s).1) (c.IpamAggregatesRead id s).2
      (t ++ [Call.read id])
  | .IpamAggregatesUpdate id data k, s, t =>
    Remote.run c (k (c.IpamAggregatesUpdate id data s).1) (c.IpamAggregatesUpdate id data s).2
      (t ++ [Call.update id data])
  | .IpamAggregatesDelete id k, s, t =>
    Remote.run c (k (c.IpamAggregatesDelete id s).1) (c.IpamAggregatesDelete id s).2
      (t ++ [Call.delete id])

/-- A handler invocation `handler(d, meta)`: the body, given the local data, is run against
the client held by `meta`, from the current remote state and trace. -/
def World.exec {σ ε : Type} (c : Client σ ε) (w : World σ)
    (body : ResourceData → Remote ε (Ret ε × ResourceData)) : Ret ε × World σ :=
  (((body w.d).run c w.remote w.calls).1.1,
    { d := ((body w.d).run c w.remote w.calls).1.2,
      remote := ((body w.d).run c w.remote w.calls).2.1,
      calls := ((body w.d).run c w.remote w.calls).2.2 })

/-- Body of `resourceNetboxIpamAggregateCreate` (lines 52-87). -/
def Body.resourceNetboxIpamAggregateCreate {ε : Type} (sz : IntSize) (d : ResourceData) :
    Remote ε (Ret ε × ResourceData) :=
  let pfx := d.pfx
  let rirID := int64OfInt d.rir_id
  let description := d.description
  let tags : List String := []
  let parm : WritableAggregate :=
    { Prefix := pfx, Description := description, Rir := rirID, Tags := tags }
  .IpamAggregatesCreate parm fun
    | .error err => .ret (.err (.remote err), d)
    | .ok out => .ret (.nil, d.SetId (Itoa (toInt sz out.ID)))

/-- Body of `resourceNetboxIpamAggregateUpdate` (lines 90-129). -/
def Body.resourceNetboxIpamAggregateUpdate {ε : Type} (sz : IntSize) (d : ResourceData) :
    Remote ε (Ret ε × ResourceData) :=
  match Atoi sz d.id with
  | .error err => .ret (.err (.num err), d)
  | .ok id =>
    let pfx := d.pfx
    let rirID := int64OfInt d.rir_id
    let description := d.description
    let tags : List String := []
    let data : WritableAggregate :=
      { Prefix := pfx, Description := description, Rir := rirID, Tags := tags }
    .IpamAggregatesUpdate (int64OfInt id) data fun
      | .error err => .ret (.err (.remote err), d)
      | .ok _ => .ret (.nil, d)

/-- Body of `resourceNetboxIpamAggregateRead` (lines 132-159).
`readResult.Payload.Rir.ID` dereferences the `Rir` pointer after `"prefix"` has been set. -/
def Body.resourceNetboxIpamAggregateRead {ε : Type} (sz : IntSize) (d : ResourceData) :
    Remote ε (Ret ε × ResourceData) :=
  match Atoi sz d.id with
  | .error err => .ret (.err (.num err), d)
  | .ok id =>
    .IpamAggregatesRead (int64OfInt id) fun
      | .error err => .ret (.err (.remote err), d)
      | .ok payload =>
        let d1 := d.SetPrefix payload.Prefix
        match payload.Rir with
        | none => .ret (.nilDeref, d1)
        | some rir =>
          let d2 := d1.SetRirID sz rir.ID
          let d3 := d2.SetDescription payload.Description
          .ret (.nil, d3)

/-- Body of `resourceNetboxIpamAggregateDelete` (lines 162-185): the error of the remote call
is logged and the handler returns nil. -/
def Body.resourceNetboxIpamAggregateDelete {ε : Type} (sz : IntSize) (d : ResourceData) :
    Remote ε (Ret ε × ResourceData) :=
  match Atoi sz d.id with
  | .error err => .ret (.err (.num err), d)
  | .ok id =>
    .IpamAggregatesDelete (int64OfInt id) fun
      | .error _ => .ret (.nil, d)
      | .ok _ => .ret (.nil, d)

/-- Handler `resourceNetboxIpamAggregateCreate(d, meta)`. -/
def resourceNetboxIpamAggregateCreate {σ ε : Type} (sz : IntSize) (c : Client σ ε)
    (w : World σ) : Ret ε × World σ :=
  w.exec c (Body.resourceNetboxIpamAggregateCreate sz)

/-- Handler `resourceNetboxIpamAggregateUpdate(d, meta)`. -/
def resourceNetboxIpamAggregateUpdate {σ ε : Type} (sz : IntSize) (c : Client σ ε)
    (w : World σ) : Ret ε × World σ :=
  w.exec c (Body.resourceNetboxIpamAggregateUpdate sz)

/-- Handler `resourceNetboxIpamAggregateRead(d, meta)`. -/
def resourceNetboxIpamAggregateRead {σ ε : Type} (sz : IntSize) (c : Client σ ε)
    (w : World σ) : Ret ε × World σ :=
  w.exec c (Body.resourceNetboxIpamAggregateRead sz)

/-- Handler `resourceNetboxIpamAggregateDelete(d, meta)`. -/
def resourceNetboxIpamAggregateDelete {σ ε : Type} (sz : IntSize) (c : Client σ ε)
    (w : World σ) : Ret ε × World σ :=
  w.exec c (Body.resourceNetboxIpamAggregateDelete sz)

/-! ## Reference clients used in examples -/

/-- A client on which every call succeeds with the payload `a`. -/
def constClient (a : Aggregate) : Client Unit String where
  IpamAggregatesCreate := fun _ s => (.ok a, s)
  IpamAggregatesRead := fun _ s => (.ok a, s)
  IpamAggregatesUpdate := fun _ _ s => (.ok a, s)
  IpamAggregatesDelete := fun _ s => (.ok (), s)

/-- A client on which every call fails with the error `e`. -/
def failClient (e : String) : Client Unit String where
  IpamAggregatesCreate := fun _ s => (.error e, s)
  IpamAggregatesRead := fun _ s => (.error e, s)
  IpamAggregatesUpdate := fun _ _ s => (.error e, s)
  IpamAggregatesDelete := fun _ s => (.error e, s)

/-- A remote store: the next identifier to assign and the stored bodies by identifier. -/
structure Store where
  nextID : Int
  rows : List (Int × WritableAggregate)
deriving DecidableEq, Repr

/-- The aggregate the store reports for a body stored under `id`: the body, unchanged. -/
def Store.report (id : Int) (data : WritableAggregate) : Aggregate :=
  { ID := id, Prefix := some data.Prefix, Rir := some ⟨data.Rir⟩,
    Description := data.Description }

/-- A client over `Store` that stores a created body unchanged under the next identifier and
returns it on read-by-identifier; an unknown identifier is the error `"not found"`. -/
def storeClient : Client Store String where
  IpamAggregatesCreate := fun data s =>
    (.ok (Store.report s.nextID data),
      { nextID := s.nextID + 1, rows := (s.nextID, data) :: s.rows })
  IpamAggregatesRead := fun id s =>
    match s.rows.lookup id with
    | some data => (.ok (Store.report id data), s)
    | none => (.error "not found", s)
  IpamAggregatesUpdate := fun id data s =>
    match s.rows.lookup id with
    | some _ => (.ok (Store.report id data), { s with rows := (id, data) :: s.rows })
    | none => (.error "not found", s)
  IpamAggregatesDelete := fun id s =>
    match s.rows.lookup id with
    | some _ => (.ok (), { s with rows := s.rows.filter (fun p => p.1 ≠ id) })
    | none => (.error "not found", s)

/-- The local state of the scenario `prefix="10.0.0.0/8", rir_id=1, description="test"`
before create: no identifier yet. -/
def scenarioData : ResourceData :=
  { id := "", pfx := "10.0.0.0/8", rir_id := 1, description := "test" }

/-- Whether `s` is the decimal text of an integer: an optional sign followed by one or more
decimal digits. -/
def isDecimalText (s : String) : Bool :=
  match s.data with
  | [] => false
  | c :: rest =>
    if c = '+' ∨ c = '-' then !rest.isEmpty && rest.all Char.isDigit
    else (c :: rest).all Char.isDigit

/-- The local state right after an import of identifier 7: only the identifier is set. -/
def importedData : ResourceData :=
  { id := "7", pfx := "", rir_id := 0, description := "" }

/-- The request body built from `scenarioData`. -/
def scenarioBody : WritableAggregate :=
  { Prefix := "10.0.0.0/8", Description := "test", Rir := 1, Tags := [] }

/-- An aggregate whose own identifier and whose registry identifier are both `2^31`, the
first `int64` value above the range of a 32-bit `int`. -/
def wideAggregate : Aggregate :=
  { ID := 2147483648, Prefix := some "10.0.0.0/8", Rir := some ⟨2147483648⟩,
    Description := "test" }

/-! ## Digit strings -/

/-- The value of a digit string read from the left into the accumulator `n`. -/
def decAcc (n : Nat) (cs : List Char) : Nat :=
  cs.foldl (fun a c => a * 10 + (c.toNat - 48)) n

/-! ## Facts about the integer conversions and strconv -/

theorem toInt_of_fits (sz : IntSize) (v : Int) (h : fitsInt sz v) : toInt sz v = v := by
  cases sz <;> simp only [toInt, wrapSigned, fitsInt, IntSize.bits] at * <;> norm_num at * <;>
    split_ifs <;> omega

theorem fitsInt_toInt (sz : IntSize) (v : Int) : fitsInt sz (toInt sz v) := by
  cases sz <;> simp only [toInt, wrapSigned, fitsInt, IntSize.bits] <;> norm_num <;>
    split_ifs <;> omega

theorem fitsInt_b64_iff (v : Int) : fitsInt .b64 v ↔ isInt64 v := by
  simp [fitsInt, isInt64, IntSize.bits]

theorem isInt64_of_fitsInt (sz : IntSize) (v : Int) (h : fitsInt sz v) : isInt64 v := by
  cases sz <;> simp only [fitsInt, isInt64, IntSize.bits] at * <;> norm_num at * <;> omega

theorem decAcc_nil (n : Nat) : decAcc n [] = n := rfl

theorem decAcc_cons (n : Nat) (c : Char) (cs : List Char) :
    decAcc n (c :: cs) = decAcc (n * 10 + (c.toNat - 48)) cs := rfl

theorem digitChar_toNat (d : Nat) (h : d < 10) : (digitChar d).toNat = 48 + d := by
  interval_cases d <;> decide

theorem decAcc_eq (n : Nat) (cs : List Char) :
    decAcc n cs = n * 10 ^ cs.length + decAcc 0 cs := by
  induction cs generalizing n with
  | nil => simp [decAcc_nil]
  | cons c cs ih =>
    simp only [decAcc_cons, List.length_cons]
    rw [ih (n * 10 + (c.toNat - 48)), ih (0 * 10 + (c.toNat - 48))]
    ring

theorem le_decAcc (n : Nat) (cs : List Char) : n ≤ decAcc n cs := by
  induction cs generalizing n with
  | nil => simp [decAcc_nil]
  | cons c cs ih =>
    simp only [decAcc_cons]
    exact le_trans (by omega) (ih _)

theorem formatAux_digits (fuel u : Nat) (acc : List Char)
    (hacc : ∀ c ∈ acc, 48 ≤ c.toNat ∧ c.toNat ≤ 57) :
    ∀ c ∈ formatAux fuel u acc, 48 ≤ c.toNat ∧ c.toNat ≤ 57 := by
  induction fuel generalizing u acc with
  | zero => simpa [formatAux] using hacc
  | succ fuel ih =>
    unfold formatAux
    split_ifs with h
    · intro c hc
      rcases List.mem_cons.1 hc with rfl | hc
      · rw [digitChar_toNat u h]; omega
      · exact hacc c hc
    · apply ih
      intro c hc
      rcases List.mem_cons.1 hc with rfl | hc
      · rw [digitChar_toNat (u % 10) (Nat.mod_lt _ (by norm_num))]; omega
      · exact hacc c hc

theorem formatAux_val (fuel u : Nat) (acc : List Char) (h : u < 10 ^ fuel) :
    decAcc 0 (formatAux fuel u acc) = u * 10 ^ acc.length + decAcc 0 acc := by
  induction fuel generalizing u acc with
  | zero =>
    have : u = 0 := by simpa using h
    simp [formatAux, this]
  | succ fuel ih =>
    unfold formatAux
    split_ifs with h10
    · simp only [decAcc_cons]
      rw [decAcc_eq, digitChar_toNat u h10]
      simp
    · have hlt : u / 10 < 10 ^ fuel := by
        rw [Nat.div_lt_iff_lt_mul (by norm_num)]
        rw [pow_succ] at h; exact h
      rw [ih (u / 10) _ hlt]
      simp only [decAcc_cons, List.length_cons]
      rw [decAcc_eq, digitChar_toNat (u % 10) (Nat.mod_lt _ (by norm_num))]
      have hu : u = 10 * (u / 10) + u % 10 := (Nat.div_add_mod u 10).symm
      generalize u / 10 = q at *
      generalize u % 10 = m at *
      subst hu
      simp
      ring

theorem formatAux_length (fuel u : Nat) (acc : List Char) :
    acc.length ≤ (formatAux fuel u acc).length := by
  induction fuel generalizing u acc with
  | zero => simp [formatAux]
  | succ fuel ih =>
    unfold formatAux
    split_ifs with h
    · simp
    · exact le_trans (by simp) (ih _ _)

theorem formatBits_ne_nil (u : Nat) : formatBits u ≠ [] := by
  unfold formatBits formatAux
  split_ifs with h
  · simp
  · intro hnil
    have := formatAux_length 19 (u / 10) [digitChar (u % 10)]
    rw [hnil] at this
    simp at this

theorem formatBits_digits (u : Nat) : ∀ c ∈ formatBits u, 48 ≤ c.toNat ∧ c.toNat ≤ 57 :=
  formatAux_digits 20 u [] (by simp)

theorem formatBits_val (u : Nat) (h : u < 10 ^ 20) : decAcc 0 (formatBits u) = u := by
  unfold formatBits
  rw [formatAux_val 20 u [] h]
  simp [decAcc_nil]

theorem parseUintLoop_ok (maxVal n : Nat) (cs : List Char)
    (hd : ∀ c ∈ cs, 48 ≤ c.toNat ∧ c.toNat ≤ 57) (hmax : maxVal < 2 ^ 64)
    (hv : decAcc n cs ≤ maxVal) : parseUintLoop maxVal n cs = .ok (decAcc n cs) := by
  induction cs generalizing n with
  | nil => simp [parseUintLoop, decAcc_nil]
  | cons c cs ih =>
    have hc := hd c (List.mem_cons_self _ _)
    have hle := le_decAcc (n * 10 + (c.toNat - 48)) cs
    simp only [decAcc_cons] at hv ⊢
    have hb : n * 10 + (c.toNat - 48) < 2 ^ 64 := by omega
    unfold parseUintLoop
    rw [if_pos hc, if_neg (by norm_num at hb ⊢; omega)]
    simp only []
    rw [Nat.mod_eq_of_lt hb, if_neg (by omega)]
    exact ih _ (fun c hc => hd c (List.mem_cons_of_mem _ hc)) hv

theorem parseUintLoop_digits (maxVal n v : Nat) (cs : List Char)
    (h : parseUintLoop maxVal n cs = .ok v) : ∀ c ∈ cs, 48 ≤ c.toNat ∧ c.toNat ≤ 57 := by
  induction cs generalizing n with
  | nil => simp
  | cons c cs ih =>
    unfold parseUintLoop at h
    simp only [] at h
    split_ifs at h with h1 h2 h3
    intro x hx
    rcases List.mem_cons.1 hx with rfl | hx
    · exact h1
    · exact ih _ h x hx

theorem isDigit_of_toNat (c : Char) (h : 48 ≤ c.toNat ∧ c.toNat ≤ 57) : c.isDigit = true := by
  simp only [Char.isDigit, Char.toNat, Bool.and_eq_true, decide_eq_true_eq, ge_iff_le] at *
  constructor
  · rw [UInt32.le_def]; exact Fin.le_def.2 h.1
  · rw [UInt32.le_def]; exact Fin.le_def.2 h.2

theorem ParseUint_formatBits (bits u : Nat) (hb : bits ≤ 64) (hu : u ≤ 2 ^ bits - 1) :
    ParseUint (formatBits u) bits = .ok u := by
  have h64 : 2 ^ bits ≤ 2 ^ 64 := Nat.pow_le_pow_right (by norm_num) hb
  have hpos : 0 < 2 ^ bits := Nat.pow_pos (by norm_num)
  have hu20 : u < 10 ^ 20 := by norm_num at h64 ⊢; omega
  have hval := formatBits_val u hu20
  unfold ParseUint
  rw [if_neg (formatBits_ne_nil u)]
  rw [parseUintLoop_ok _ 0 _ (formatBits_digits u) (by omega) (by omega), hval]

theorem ParseInt_FormatInt (bits : Nat) (hb : bits = 32 ∨ bits = 64) (v : Int)
    (h : -(2 : Int) ^ (bits - 1) ≤ v ∧ v < (2 : Int) ^ (bits - 1)) :
    ParseInt (FormatInt v) bits = .ok v := by
  have hb64 : bits ≤ 64 := by omega
  have hpow : (2 : Nat) ^ bits = 2 * 2 ^ (bits - 1) := by
    rcases hb with rfl | rfl <;> norm_num
  have hcast : ((2 ^ (bits - 1) : Nat) : Int) = (2 : Int) ^ (bits - 1) := by push_cast; rfl
  have hpos : 0 < 2 ^ (bits - 1) := Nat.pow_pos (by norm_num)
  by_cases hneg : v < 0
  · have hu : v.natAbs ≤ 2 ^ bits - 1 := by omega
    have hPU := ParseUint_formatBits bits v.natAbs hb64 hu
    have hdata : (FormatInt v).data = '-' :: formatBits v.natAbs := by
      simp [FormatInt, hneg]
    unfold ParseInt
    rw [hdata]
    have h1 : ¬ (v.natAbs > 2 ^ (bits - 1)) := by omega
    simp only [Char.reduceEq, or_true, or_false, if_true, decide_True, decide_False]
    rw [hPU]
    simp only []
    rw [if_neg (by simp [h1]), if_neg (by simp [h1])]
    congr 1
    omega
  · have hu : v.natAbs ≤ 2 ^ bits - 1 := by omega
    have hPU := ParseUint_formatBits bits v.natAbs hb64 hu
    obtain ⟨c, rest, hcr⟩ := List.exists_cons_of_ne_nil (formatBits_ne_nil v.natAbs)
    have hc := formatBits_digits v.natAbs c (by rw [hcr]; exact List.mem_cons_self _ _)
    have hplus : c ≠ '+' := by rintro rfl; revert hc; decide
    have hminus : c ≠ '-' := by rintro rfl; revert hc; decide
    have hdata : (FormatInt v).data = c :: rest := by
      simp [FormatInt, hneg, hcr]
    unfold ParseInt
    rw [hdata]
    simp only [hplus, hminus, or_self, if_false, ← hcr]
    rw [hPU]
    have h1 : ¬ (v.natAbs ≥ 2 ^ (bits - 1)) := by omega
    simp only []
    rw [if_neg (by simp [h1, hminus]), if_neg (by simp [hminus])]
    rw [if_neg (by decide)]
    congr 1
    omega

/-- Parsing back what `Itoa` printed gives the printed `int`. -/
theorem Atoi_Itoa (sz : IntSize) (v : Int) (h : fitsInt sz v) : Atoi sz (Itoa v) = .ok v := by
  unfold Atoi Itoa
  rw [ParseInt_FormatInt sz.bits (by cases sz <;> simp [IntSize.bits]) v h]
  simp only []
  rw [toInt_of_fits sz v h]

theorem ParseUint_ok_digits (bits u : Nat) (body : List Char)
    (h : ParseUint body bits = .ok u) :
    body ≠ [] ∧ ∀ c ∈ body, 48 ≤ c.toNat ∧ c.toNat ≤ 57 := by
  unfold ParseUint at h
  split_ifs at h with h0
  exact ⟨h0, parseUintLoop_digits _ _ _ _ h⟩

/-- Whatever `ParseInt` accepts is the decimal text of an integer. -/
theorem ParseInt_ok_isDecimalText (bits : Nat) (hb : bits = 32 ∨ bits = 64) (s : String)
    (v : Int) (h : ParseInt s bits = .ok v) : isDecimalText s = true := by
  have hpow : (2 : Nat) ^ bits = 2 * 2 ^ (bits - 1) := by
    rcases hb with rfl | rfl <;> norm_num
  have hpos : 1 < 2 ^ (bits - 1) := by
    rcases hb with rfl | rfl <;> norm_num
  unfold ParseInt at h
  unfold isDecimalText
  cases hdata : s.data with
  | nil => rw [hdata] at h; simp at h
  | cons c rest =>
    rw [hdata] at h
    simp only [] at h ⊢
    cases hPU : ParseUint (if c = '+' ∨ c = '-' then rest else c :: rest) bits with
    | error k =>
      rw [hPU] at h
      cases k with
      | ErrSyntax => simp at h
      | ErrRange =>
        exfalso
        simp only [] at h
        by_cases hm : c = '-'
        · have : 2 ^ bits - 1 > 2 ^ (bits - 1) := by omega
          simp [hm, this] at h
        · have : 2 ^ bits - 1 ≥ 2 ^ (bits - 1) := by omega
          simp [hm, this] at h
    | ok u =>
      obtain ⟨hne, hdig⟩ := ParseUint_ok_digits bits u _ hPU
      split_ifs with hs
      · rw [if_pos hs] at hne hdig
        simp only [Bool.and_eq_true, Bool.not_eq_true', List.all_eq_true]
        refine ⟨?_, fun x hx => isDigit_of_toNat x (hdig x hx)⟩
        cases rest with
        | nil => exact absurd rfl hne
        | cons _ _ => rfl
      · rw [if_neg hs] at hdig
        simp only [List.all_eq_true]
        exact fun x hx => isDigit_of_toNat x (hdig x hx)

/-- An identifier that is not the decimal text of an integer is refused by `Atoi`, with a
`NumError` that names `Atoi` and the identifier. -/
theorem Atoi_error_of_not_decimal (sz : IntSize) (s : String) (h : isDecimalText s = false) :
    ∃ e, Atoi sz s = .error e ∧ e.Func = "Atoi" := by
  unfold Atoi
  cases hP : ParseInt s sz.bits with
  | error e => exact ⟨_, rfl, rfl⟩
  | ok v =>
    have := ParseInt_ok_isDecimalText sz.bits (by cases sz <;> simp [IntSize.bits]) s v hP
    rw [h] at this
    exact absurd this (by decide)

/-! ## The handlers, unfolded on a client -/

theorem Remote.run_ret {σ ε α : Type} (c : Client σ ε) (a : α) (s : σ) (t : List Call) :
    (Remote.ret a : Remote ε α).run c s t = (a, s, t) := rfl

/-- What `resourceNetboxIpamAggregateCreate` computes on a client: the result and the next world in terms of the
client's answer to the call the body issues. -/
theorem resourceNetboxIpamAggregateCreate_eq {σ ε : Type} (sz : IntSize) (c : Client σ ε)
    (w : World σ) :
    resourceNetboxIpamAggregateCreate sz c w = (
    let pfx := w.d.pfx
    let rirID := int64OfInt w.d.rir_id
    let description := w.d.description
    let tags : List String := []
    let parm : WritableAggregate :=
      { Prefix := pfx, Description := description, Rir := rirID, Tags := tags }
    match c.IpamAggregatesCreate parm w.remote with
    | (.error err, r) => (.err (.remote err), { w with remote := r, calls := w.calls ++ [.create parm] })
    | (.ok out, r) =>
      (.nil, { d := w.d.SetId (Itoa (toInt sz out.ID)), remote := r,
               calls := w.calls ++ [.create parm] })) := by
  rcases hcall : c.IpamAggregatesCreate
    { Prefix := w.d.pfx, Description := w.d.description, Rir := int64OfInt w.d.rir_id,
      Tags := [] } w.remote with ⟨res, r⟩
  cases res <;>
    simp [resourceNetboxIpamAggregateCreate, World.exec, Body.resourceNetboxIpamAggregateCreate,
      Remote.run, hcall]

/-- What `resourceNetboxIpamAggregateUpdate` computes on a client: the result and the next world in terms of the
client's answer to the call the body issues. -/
theorem resourceNetboxIpamAggregateUpdate_eq {σ ε : Type} (sz : IntSize) (c : Client σ ε)
    (w : World σ) :
    resourceNetboxIpamAggregateUpdate sz c w = (
    match Atoi sz w.d.id with
    | .error err => (.err (.num err), w)
    | .ok id =>
      let pfx := w.d.pfx
      let rirID := int64OfInt w.d.rir_id
      let description := w.d.description
      let tags : List String := []
      let data : WritableAggregate :=
        { Prefix := pfx, Description := description, Rir := rirID, Tags := tags }
      match c.IpamAggregatesUpdate (int64OfInt id) data w.remote with
      | (.error err, r) =>
        (.err (.remote err),
          { w with remote := r, calls := w.calls ++ [.update (int64OfInt id) data] })
      | (.ok _, r) =>
        (.nil, { w with remote := r, calls := w.calls ++ [.update (int64OfInt id) data] })) := by
  cases hid : Atoi sz w.d.id with
  | error e =>
    simp [resourceNetboxIpamAggregateUpdate, World.exec, Body.resourceNetboxIpamAggregateUpdate, Remote.run, hid]
  | ok n =>
    rcases hcall : c.IpamAggregatesUpdate (int64OfInt n)
      { Prefix := w.d.pfx, Description := w.d.description, Rir := int64OfInt w.d.rir_id,
        Tags := [] } w.remote with ⟨res, r⟩
    cases res <;>
      simp [resourceNetboxIpamAggregateUpdate, World.exec, Body.resourceNetboxIpamAggregateUpdate, Remote.run, hid, hcall]

/-- What `resourceNetboxIpamAggregateRead` computes on a client: the result and the next world in terms of the
client's answer to the call the body issues. -/
theorem resourceNetboxIpamAggregateRead_eq {σ ε : Type} (sz : IntSize) (c : Client σ ε)
    (w : World σ) :
    resourceNetboxIpamAggregateRead sz c w = (
    match Atoi sz w.d.id with
    | .error err => (.err (.num err), w)
    | .ok id =>
      match c.IpamAggregatesRead (int64OfInt id) w.remote with
      | (.error err, r) =>
        (.err (.remote err), { w with remote := r, calls := w.calls ++ [.read (int64OfInt id)] })
      | (.ok payload, r) =>
        let d1 := w.d.SetPrefix payload.Prefix
        match payload.Rir with
        | none => (.nilDeref, { d := d1, remote := r, calls := w.calls ++ [.read (int64OfInt id)] })
        | some rir =>
          let d2 := d1.SetRirID sz rir.ID
          let d3 := d2.SetDescription payload.Description
          (.nil, { d := d3, remote := r, calls := w.calls ++ [.read (int64OfInt id)] })) := by
  cases hid : Atoi sz w.d.id with
  | error e =>
    simp [resourceNetboxIpamAggregateRead, World.exec, Body.resourceNetboxIpamAggregateRead, Remote.run, hid]
  | ok n =>
    rcases hcall : c.IpamAggregatesRead (int64OfInt n) w.remote with ⟨res, r⟩
    cases res with
    | error e =>
      simp [resourceNetboxIpamAggregateRead, World.exec, Body.resourceNetboxIpamAggregateRead, Remote.run, hid, hcall]
    | ok payload =>
      cases hrir : payload.Rir <;>
        simp [resourceNetboxIpamAggregateRead, World.exec, Body.resourceNetboxIpamAggregateRead, Remote.run, hid, hcall, hrir]

/-- What `resourceNetboxIpamAggregateDelete` computes on a client: the result and the next world in terms of the
client's answer to the call the body issues. -/
theorem resourceNetboxIpamAggregateDelete_eq {σ ε : Type} (sz : IntSize) (c : Client σ ε)
    (w : World σ) :
    resourceNetboxIpamAggregateDelete sz c w = (
    match Atoi sz w.d.id with
    | .error err => (.err (.num err), w)
    | .ok id =>
      match c.IpamAggregatesDelete (int64OfInt id) w.remote with
      | (.error _, r) =>
        (.nil, { w with remote := r, calls := w.calls ++ [.delete (int64OfInt id)] })
      | (.ok _, r) =>
        (.nil, { w with remote := r, calls := w.calls ++ [.delete (int64OfInt id)] })) := by
  cases hid : Atoi sz w.d.id with
  | error e =>
    simp [resourceNetboxIpamAggregateDelete, World.exec, Body.resourceNetboxIpamAggregateDelete, Remote.run, hid]
  | ok n =>
    rcases hcall : c.IpamAggregatesDelete (int64OfInt n) w.remote with ⟨res, r⟩
    cases res <;>
      simp [resourceNetboxIpamAggregateDelete, World.exec, Body.resourceNetboxIpamAggregateDelete, Remote.run, hid, hcall]

/-! ## The handlers: results, local state and remote calls -/

/-- Claim C1 (amended): when the remote create call succeeds with a response carrying the
identifier `N`, create returns nil, sets the local identifier to the decimal string of
`int(N)` - which is the decimal string of `N` whenever `N` fits Go's `int`, so for every
`int64` on a 64-bit build - and leaves prefix, rir_id and description as they were. -/
theorem create_success_sets_id {σ ε : Type} (sz : IntSize) (c : Client σ ε) (w : World σ)
    (out : Aggregate) (r : σ)
    (hcall : c.IpamAggregatesCreate
      { Prefix := w.d.pfx, Description := w.d.description, Rir := w.d.rir_id, Tags := [] }
      w.remote = (.ok out, r)) :
    (resourceNetboxIpamAggregateCreate sz c w).1 = .nil ∧
    (resourceNetboxIpamAggregateCreate sz c w).2.d.id = Itoa (toInt sz out.ID) ∧
    (fitsInt sz out.ID → (resourceNetboxIpamAggregateCreate sz c w).2.d.id = Itoa out.ID) ∧
    (resourceNetboxIpamAggregateCreate sz c w).2.d.pfx = w.d.pfx ∧
    (resourceNetboxIpamAggregateCreate sz c w).2.d.rir_id = w.d.rir_id ∧
    (resourceNetboxIpamAggregateCreate sz c w).2.d.description = w.d.description := by
  simp only [resourceNetboxIpamAggregateCreate_eq, int64OfInt, hcall, ResourceData.SetId]
  refine ⟨trivial, trivial, ?_, trivial, trivial, trivial⟩
  intro hfit
  rw [toInt_of_fits sz out.ID hfit]

/-- Claim C2 (amended): when the local identifier parses and the remote read call succeeds
with a payload whose registry reference is present, read returns nil and leaves local
prefix equal to the payload's prefix (the empty string for a nil prefix pointer), local
rir_id equal to `int` of the registry reference's identifier - the identifier itself
whenever it fits Go's `int` - and local description equal to the payload's description. -/
theorem read_success_overwrites_fields {σ ε : Type} (sz : IntSize) (c : Client σ ε)
    (w : World σ) (n : Int) (payload : Aggregate) (rir : NestedRIR) (r : σ)
    (hid : Atoi sz w.d.id = .ok n)
    (hcall : c.IpamAggregatesRead n w.remote = (.ok payload, r))
    (hrir : payload.Rir = some rir) :
    (resourceNetboxIpamAggregateRead sz c w).1 = .nil ∧
    (resourceNetboxIpamAggregateRead sz c w).2.d.pfx = payload.Prefix.getD "" ∧
    (resourceNetboxIpamAggregateRead sz c w).2.d.rir_id = toInt sz rir.ID ∧
    (fitsInt sz rir.ID → (resourceNetboxIpamAggregateRead sz c w).2.d.rir_id = rir.ID) ∧
    (resourceNetboxIpamAggregateRead sz c w).2.d.description = payload.Description := by
  simp only [resourceNetboxIpamAggregateRead_eq, int64OfInt, hid, hcall, hrir,
    ResourceData.SetPrefix, ResourceData.SetRirID, ResourceData.SetDescription]
  refine ⟨trivial, trivial, trivial, ?_, trivial⟩
  intro hfit
  rw [toInt_of_fits sz rir.ID hfit]

/-- Claim C3: when the remote call of create, read or update returns the error `e`, the
handler returns exactly `e` and the local state (identifier and the three fields) is
unchanged; an identifier that was unset before a failed create is still unset. -/
theorem remote_error_propagated {σ ε : Type} (sz : IntSize) (c : Client σ ε) (w : World σ)
    (e : ε) (r : σ) :
    (c.IpamAggregatesCreate
        { Prefix := w.d.pfx, Description := w.d.description, Rir := w.d.rir_id, Tags := [] }
        w.remote = (.error e, r) →
      (resourceNetboxIpamAggregateCreate sz c w).1 = .err (.remote e) ∧
      (resourceNetboxIpamAggregateCreate sz c w).2.d = w.d ∧
      (w.d.id = "" → (resourceNetboxIpamAggregateCreate sz c w).2.d.id = "")) ∧
    (∀ n, Atoi sz w.d.id = .ok n → c.IpamAggregatesRead n w.remote = (.error e, r) →
      (resourceNetboxIpamAggregateRead sz c w).1 = .err (.remote e) ∧
      (resourceNetboxIpamAggregateRead sz c w).2.d = w.d) ∧
    (∀ n, Atoi sz w.d.id = .ok n →
      c.IpamAggregatesUpdate n
        { Prefix := w.d.pfx, Description := w.d.description, Rir := w.d.rir_id, Tags := [] }
        w.remote = (.error e, r) →
      (resourceNetboxIpamAggregateUpdate sz c w).1 = .err (.remote e) ∧
      (resourceNetboxIpamAggregateUpdate sz c w).2.d = w.d) := by
  refine ⟨?_, ?_, ?_⟩
  · intro hcall
    simp only [resourceNetboxIpamAggregateCreate_eq, int64OfInt, hcall]
    exact ⟨trivial, trivial, id⟩
  · intro n hid hcall
    simp only [resourceNetboxIpamAggregateRead_eq, int64OfInt, hid, hcall]
    exact ⟨trivial, trivial⟩
  · intro n hid hcall
    simp only [resourceNetboxIpamAggregateUpdate_eq, int64OfInt, hid, hcall]
    exact ⟨trivial, trivial⟩

/-- Claim C4: when the local identifier parses, delete returns nil whatever the remote
delete call does: on any two clients (one failing, one succeeding) the result is the same. -/
theorem delete_returns_nil {σ ε : Type} (sz : IntSize) (c c2 : Client σ ε) (w : World σ)
    (n : Int) (hid : Atoi sz w.d.id = .ok n) :
    (resourceNetboxIpamAggregateDelete sz c w).1 = .nil ∧
    (resourceNetboxIpamAggregateDelete sz c w).1 = (resourceNetboxIpamAggregateDelete sz c2 w).1 := by
  have key : ∀ c1 : Client σ ε, (resourceNetboxIpamAggregateDelete sz c1 w).1 = .nil := by
    intro c1
    simp only [resourceNetboxIpamAggregateDelete_eq, hid]
    rcases hcall : c1.IpamAggregatesDelete (int64OfInt n) w.remote with ⟨res, r⟩
    cases res <;> rfl
  exact ⟨key c, by rw [key c, key c2]⟩

/-- Claim C5: when the local identifier is not the decimal text of an integer, read, update
and delete each return the parse error of `Atoi`, issue no remote call and leave the local
state (and the remote state) unchanged. -/
theorem malformed_id_parse_error {σ ε : Type} (sz : IntSize) (c : Client σ ε) (w : World σ)
    (hbad : isDecimalText w.d.id = false) :
    ∃ e : NumError, Atoi sz w.d.id = .error e ∧
      resourceNetboxIpamAggregateRead sz c w = (.err (.num e), w) ∧
      resourceNetboxIpamAggregateUpdate sz c w = (.err (.num e), w) ∧
      resourceNetboxIpamAggregateDelete sz c w = (.err (.num e), w) := by
  obtain ⟨e, he, _⟩ := Atoi_error_of_not_decimal sz w.d.id hbad
  refine ⟨e, he, ?_, ?_, ?_⟩
  · simp only [resourceNetboxIpamAggregateRead_eq, he]
  · simp only [resourceNetboxIpamAggregateUpdate_eq, he]
  · simp only [resourceNetboxIpamAggregateDelete_eq, he]

/-- Claim C6: for the local state (prefix p, rir_id r, description s), create applies the
client's create call to exactly the body (prefix p, description s, rir r, tags empty), and
update, when the identifier parses to `n`, applies the client's update call to exactly the
identifier `n` and that same body.  Whatever the client is, that one application is what the
trace records, the remote state after the handler is the one it leaves, and the handler's
return value is the one its answer determines. -/
theorem create_update_request_bodies {σ ε : Type} (sz : IntSize) (c : Client σ ε)
    (w : World σ) :
    ((resourceNetboxIpamAggregateCreate sz c w).2.calls =
        w.calls ++ [Call.create
          { Prefix := w.d.pfx, Description := w.d.description, Rir := w.d.rir_id,
            Tags := [] }] ∧
      (resourceNetboxIpamAggregateCreate sz c w).2.remote =
        (c.IpamAggregatesCreate
          { Prefix := w.d.pfx, Description := w.d.description, Rir := w.d.rir_id,
            Tags := [] } w.remote).2 ∧
      (resourceNetboxIpamAggregateCreate sz c w).1 =
        match (c.IpamAggregatesCreate
          { Prefix := w.d.pfx, Description := w.d.description, Rir := w.d.rir_id,
            Tags := [] } w.remote).1 with
        | .error e => .err (.remote e)
        | .ok _ => .nil) ∧
    (∀ n, Atoi sz w.d.id = .ok n →
      (resourceNetboxIpamAggregateUpdate sz c w).2.calls =
        w.calls ++ [Call.update n
          { Prefix := w.d.pfx, Description := w.d.description, Rir := w.d.rir_id,
            Tags := [] }] ∧
      (resourceNetboxIpamAggregateUpdate sz c w).2.remote =
        (c.IpamAggregatesUpdate n
          { Prefix := w.d.pfx, Description := w.d.description, Rir := w.d.rir_id,
            Tags := [] } w.remote).2 ∧
      (resourceNetboxIpamAggregateUpdate sz c w).1 =
        match (c.IpamAggregatesUpdate n
          { Prefix := w.d.pfx, Description := w.d.description, Rir := w.d.rir_id,
            Tags := [] } w.remote).1 with
        | .error e => .err (.remote e)
        | .ok _ => .nil) := by
  constructor
  · rw [resourceNetboxIpamAggregateCreate_eq]
    simp only [int64OfInt]
    rcases hcall : c.IpamAggregatesCreate
      { Prefix := w.d.pfx, Description := w.d.description, Rir := w.d.rir_id, Tags := [] }
      w.remote with ⟨res, r⟩
    cases res <;> exact ⟨rfl, rfl, rfl⟩
  · intro n hid
    rw [resourceNetboxIpamAggregateUpdate_eq]
    simp only [int64OfInt, hid]
    rcases hcall : c.IpamAggregatesUpdate n
      { Prefix := w.d.pfx, Description := w.d.description, Rir := w.d.rir_id, Tags := [] }
      w.remote with ⟨res, r⟩
    cases res <;> exact ⟨rfl, rfl, rfl⟩

/-- Claim C7 (amended): for every `int64` value `N` that fits Go's `int` on the build target
(every `int64` on a 64-bit build), `strconv.Itoa(int(N))` parsed back with `strconv.Atoi`
and converted to `int64` succeeds and yields `N`. -/
theorem id_round_trip (sz : IntSize) (N : Int) (hfit : fitsInt sz N) :
    (Atoi sz (Itoa (toInt sz N))).map int64OfInt = .ok N := by
  rw [toInt_of_fits sz N hfit, Atoi_Itoa sz N hfit]
  rfl

/-- Claim C9: read, update and delete leave the local identifier as it was, whatever the
identifier and whatever the remote call does; update and delete change no local field. -/
theorem id_immutable_after_create {σ ε : Type} (sz : IntSize) (c : Client σ ε) (w : World σ) :
    (resourceNetboxIpamAggregateRead sz c w).2.d.id = w.d.id ∧
    (resourceNetboxIpamAggregateUpdate sz c w).2.d = w.d ∧
    (resourceNetboxIpamAggregateDelete sz c w).2.d = w.d := by
  refine ⟨?_, ?_, ?_⟩
  · simp only [resourceNetboxIpamAggregateRead_eq]
    cases hid : Atoi sz w.d.id with
    | error e => rfl
    | ok n =>
      simp only []
      rcases hcall : c.IpamAggregatesRead (int64OfInt n) w.remote with ⟨res, r⟩
      cases res with
      | error e => rfl
      | ok payload =>
        simp only []
        cases hrir : payload.Rir <;> rfl
  · simp only [resourceNetboxIpamAggregateUpdate_eq]
    cases hid : Atoi sz w.d.id with
    | error e => rfl
    | ok n =>
      simp only []
      rcases hcall : c.IpamAggregatesUpdate (int64OfInt n)
        { Prefix := w.d.pfx, Description := w.d.description, Rir := int64OfInt w.d.rir_id,
          Tags := [] } w.remote with ⟨res, r⟩
      cases res <;> rfl
  · simp only [resourceNetboxIpamAggregateDelete_eq]
    cases hid : Atoi sz w.d.id with
    | error e => rfl
    | ok n =>
      simp only []
      rcases hcall : c.IpamAggregatesDelete (int64OfInt n) w.remote with ⟨res, r⟩
      cases res <;> rfl

/-- Claim C8 (amended): against a remote that stores the created body unchanged and returns
it on read-by-identifier, create followed by read succeeds and leaves local prefix, rir_id
and description equal to the input triple, provided the identifier the remote assigned fits
Go's `int` on the build target (every `int64` on a 64-bit build); rir_id is a Go `int`. -/
theorem create_then_read_round_trip {σ ε : Type} (sz : IntSize) (c : Client σ ε)
    (w : World σ) (out payload : Aggregate) (r1 r2 : σ)
    (hcreate : c.IpamAggregatesCreate
      { Prefix := w.d.pfx, Description := w.d.description, Rir := w.d.rir_id, Tags := [] }
      w.remote = (.ok out, r1))
    (hread : c.IpamAggregatesRead out.ID r1 = (.ok payload, r2))
    (hstored : payload.Prefix = some w.d.pfx ∧ payload.Rir = some ⟨w.d.rir_id⟩ ∧
      payload.Description = w.d.description)
    (hrir : fitsInt sz w.d.rir_id)
    (hfit : fitsInt sz out.ID) :
    (resourceNetboxIpamAggregateCreate sz c w).1 = .nil ∧
    (resourceNetboxIpamAggregateRead sz c (resourceNetboxIpamAggregateCreate sz c w).2).1
      = .nil ∧
    (resourceNetboxIpamAggregateRead sz c (resourceNetboxIpamAggregateCreate sz c w).2).2.d.pfx
      = w.d.pfx ∧
    (resourceNetboxIpamAggregateRead sz c (resourceNetboxIpamAggregateCreate sz c w).2).2.d.rir_id
      = w.d.rir_id ∧
    (resourceNetboxIpamAggregateRead sz c
      (resourceNetboxIpamAggregateCreate sz c w).2).2.d.description = w.d.description := by
  obtain ⟨hp, hr, hdesc⟩ := hstored
  have hw1 : (resourceNetboxIpamAggregateCreate sz c w) =
      (.nil, { d := w.d.SetId (Itoa out.ID), remote := r1,
               calls := w.calls ++ [.create
                 { Prefix := w.d.pfx, Description := w.d.description, Rir := w.d.rir_id,
                   Tags := [] }] }) := by
    simp only [resourceNetboxIpamAggregateCreate_eq, int64OfInt, hcreate,
      toInt_of_fits sz out.ID hfit]
  rw [hw1]
  simp only [resourceNetboxIpamAggregateRead_eq, ResourceData.SetId, Atoi_Itoa sz out.ID hfit,
    int64OfInt, hread, hr, hp, hdesc, ResourceData.SetPrefix, ResourceData.SetRirID,
    ResourceData.SetDescription, toInt_of_fits sz w.d.rir_id hrir, Option.getD_some]
  exact ⟨trivial, trivial, trivial, trivial, trivial⟩

/-- Claim C10 (amended): create issues exactly one remote call, a create.  Read, update and
delete issue exactly one remote call (a read, update or delete addressed to the parsed
identifier) when the local identifier parses: the trace grows by that one call and the
remote state after the handler is the one that single application of the client leaves.
When the identifier does not parse (syntax or range error) they return the parse error and
leave the trace, the remote state and the local state as they were. -/
theorem one_remote_call_when_id_parses {σ ε : Type} (sz : IntSize) (c : Client σ ε)
    (w : World σ) :
    ((resourceNetboxIpamAggregateCreate sz c w).2.calls =
        w.calls ++ [Call.create
          { Prefix := w.d.pfx, Description := w.d.description, Rir := w.d.rir_id,
            Tags := [] }] ∧
      (resourceNetboxIpamAggregateCreate sz c w).2.remote =
        (c.IpamAggregatesCreate
          { Prefix := w.d.pfx, Description := w.d.description, Rir := w.d.rir_id,
            Tags := [] } w.remote).2) ∧
    (∀ n, Atoi sz w.d.id = .ok n →
      ((resourceNetboxIpamAggregateRead sz c w).2.calls = w.calls ++ [Call.read n] ∧
        (resourceNetboxIpamAggregateRead sz c w).2.remote =
          (c.IpamAggregatesRead n w.remote).2) ∧
      ((resourceNetboxIpamAggregateUpdate sz c w).2.calls =
          w.calls ++ [Call.update n
            { Prefix := w.d.pfx, Description := w.d.description, Rir := w.d.rir_id,
              Tags := [] }] ∧
        (resourceNetboxIpamAggregateUpdate sz c w).2.remote =
          (c.IpamAggregatesUpdate n
            { Prefix := w.d.pfx, Description := w.d.description, Rir := w.d.rir_id,
              Tags := [] } w.remote).2) ∧
      ((resourceNetboxIpamAggregateDelete sz c w).2.calls = w.calls ++ [Call.delete n] ∧
        (resourceNetboxIpamAggregateDelete sz c w).2.remote =
          (c.IpamAggregatesDelete n w.remote).2)) ∧
    (∀ e, Atoi sz w.d.id = .error e →
      resourceNetboxIpamAggregateRead sz c w = (.err (.num e), w) ∧
      resourceNetboxIpamAggregateUpdate sz c w = (.err (.num e), w) ∧
      resourceNetboxIpamAggregateDelete sz c w = (.err (.num e), w)) := by
  refine ⟨?_, ?_, ?_⟩
  · rw [resourceNetboxIpamAggregateCreate_eq]
    simp only [int64OfInt]
    rcases hcall : c.IpamAggregatesCreate
      { Prefix := w.d.pfx, Description := w.d.description, Rir := w.d.rir_id, Tags := [] }
      w.remote with ⟨res, r⟩
    cases res <;> exact ⟨rfl, rfl⟩
  · intro n hid
    refine ⟨?_, ?_, ?_⟩
    · rw [resourceNetboxIpamAggregateRead_eq]
      simp only [int64OfInt, hid]
      rcases hcall : c.IpamAggregatesRead n w.remote with ⟨res, r⟩
      cases res with
      | error e => exact ⟨rfl, rfl⟩
      | ok payload =>
        simp only []
        cases hrir : payload.Rir <;> exact ⟨rfl, rfl⟩
    · rw [resourceNetboxIpamAggregateUpdate_eq]
      simp only [int64OfInt, hid]
      rcases hcall : c.IpamAggregatesUpdate n
        { Prefix := w.d.pfx, Description := w.d.description, Rir := w.d.rir_id, Tags := [] }
        w.remote with ⟨res, r⟩
      cases res <;> exact ⟨rfl, rfl⟩
    · rw [resourceNetboxIpamAggregateDelete_eq]
      simp only [int64OfInt, hid]
      rcases hcall : c.IpamAggregatesDelete n w.remote with ⟨res, r⟩
      cases res <;> exact ⟨rfl, rfl⟩
  · intro e hid
    simp only [resourceNetboxIpamAggregateRead_eq, resourceNetboxIpamAggregateUpdate_eq,
      resourceNetboxIpamAggregateDelete_eq, hid]
    exact ⟨trivial, trivial, trivial⟩

/-! ## Concrete runs -/

/-- Claim C1, as stated, fails on a 32-bit build: the remote create succeeds with identifier
2147483648 and create stores "-2147483648", not the decimal string of 2147483648. -/
theorem create_id_wraps_on_32_bit :
    (constClient wideAggregate).IpamAggregatesCreate scenarioBody () = (.ok wideAggregate, ()) ∧
    wideAggregate.ID = 2147483648 ∧
    (resourceNetboxIpamAggregateCreate .b32 (constClient wideAggregate)
      ⟨scenarioData, (), []⟩).1 = .nil ∧
    (resourceNetboxIpamAggregateCreate .b32 (constClient wideAggregate)
      ⟨scenarioData, (), []⟩).2.d.id = "-2147483648" ∧
    (resourceNetboxIpamAggregateCreate .b32 (constClient wideAggregate)
      ⟨scenarioData, (), []⟩).2.d.id ≠ Itoa 2147483648 := by
  decide

/-- A run of claim C1 on a 64-bit build against the store: identifier 2147483648 is stored
as "2147483648" and the three fields are untouched. -/
theorem create_success_sets_id_witness :
    (resourceNetboxIpamAggregateCreate .b64 storeClient
      ⟨scenarioData, ⟨2147483648, []⟩, []⟩).1 = .nil ∧
    (resourceNetboxIpamAggregateCreate .b64 storeClient
      ⟨scenarioData, ⟨2147483648, []⟩, []⟩).2.d.id = "2147483648" ∧
    (resourceNetboxIpamAggregateCreate .b64 storeClient
      ⟨scenarioData, ⟨2147483648, []⟩, []⟩).2.d.pfx = "10.0.0.0/8" ∧
    (resourceNetboxIpamAggregateCreate .b64 storeClient
      ⟨scenarioData, ⟨2147483648, []⟩, []⟩).2.d.rir_id = 1 ∧
    (resourceNetboxIpamAggregateCreate .b64 storeClient
      ⟨scenarioData, ⟨2147483648, []⟩, []⟩).2.d.description = "test" := by
  have h := create_success_sets_id .b64 storeClient ⟨scenarioData, ⟨2147483648, []⟩, []⟩
    (Store.report 2147483648 scenarioBody) ⟨2147483649, [(2147483648, scenarioBody)]⟩ rfl
  exact ⟨h.1, (h.2.2.1 (by decide)).trans (by decide), h.2.2.2.1, h.2.2.2.2.1, h.2.2.2.2.2⟩

/-- Claim C2, as stated, fails on a 32-bit build: the remote read succeeds with a registry
reference of identifier 2147483648, and the local rir_id, a Go `int`, is not 2147483648. -/
theorem read_rir_id_wraps_on_32_bit :
    Atoi .b32 importedData.id = .ok 7 ∧
    (constClient wideAggregate).IpamAggregatesRead 7 () = (.ok wideAggregate, ()) ∧
    wideAggregate.Rir = some ⟨2147483648⟩ ∧
    (resourceNetboxIpamAggregateRead .b32 (constClient wideAggregate)
      ⟨importedData, (), []⟩).1 = .nil ∧
    (resourceNetboxIpamAggregateRead .b32 (constClient wideAggregate)
      ⟨importedData, (), []⟩).2.d.rir_id ≠ 2147483648 := by
  decide

/-- A run of claim C2 after an import (only the identifier "7" is set locally), on a 64-bit
build against a store that holds the scenario body under identifier 7. -/
theorem read_success_overwrites_fields_witness :
    Atoi .b64 importedData.id = .ok 7 ∧
    (resourceNetboxIpamAggregateRead .b64 storeClient
      ⟨importedData, ⟨8, [(7, scenarioBody)]⟩, []⟩).1 = .nil ∧
    (resourceNetboxIpamAggregateRead .b64 storeClient
      ⟨importedData, ⟨8, [(7, scenarioBody)]⟩, []⟩).2.d.pfx = "10.0.0.0/8" ∧
    (resourceNetboxIpamAggregateRead .b64 storeClient
      ⟨importedData, ⟨8, [(7, scenarioBody)]⟩, []⟩).2.d.rir_id = 1 ∧
    (resourceNetboxIpamAggregateRead .b64 storeClient
      ⟨importedData, ⟨8, [(7, scenarioBody)]⟩, []⟩).2.d.description = "test" := by
  have hid : Atoi .b64 importedData.id = .ok 7 := by decide
  have h := read_success_overwrites_fields .b64 storeClient
    ⟨importedData, ⟨8, [(7, scenarioBody)]⟩, []⟩ 7 (Store.report 7 scenarioBody) ⟨1⟩
    ⟨8, [(7, scenarioBody)]⟩ hid (by decide) rfl
  exact ⟨hid, h.1, h.2.1, h.2.2.2.1 (by decide), h.2.2.2.2⟩

/-- A run of claim C3 against a client that fails every call with "boom". -/
theorem remote_error_propagated_witness :
    (resourceNetboxIpamAggregateCreate .b64 (failClient "boom") ⟨scenarioData, (), []⟩).1
      = .err (.remote "boom") ∧
    (resourceNetboxIpamAggregateCreate .b64 (failClient "boom") ⟨scenarioData, (), []⟩).2.d.id
      = "" ∧
    (resourceNetboxIpamAggregateRead .b64 (failClient "boom") ⟨importedData, (), []⟩).1
      = .err (.remote "boom") ∧
    (resourceNetboxIpamAggregateRead .b64 (failClient "boom") ⟨importedData, (), []⟩).2.d
      = importedData ∧
    (resourceNetboxIpamAggregateUpdate .b64 (failClient "boom") ⟨importedData, (), []⟩).1
      = .err (.remote "boom") ∧
    (resourceNetboxIpamAggregateUpdate .b64 (failClient "boom") ⟨importedData, (), []⟩).2.d
      = importedData := by
  have hc := (remote_error_propagated .b64 (failClient "boom") ⟨scenarioData, (), []⟩
    "boom" ()).1 rfl
  have hr := (remote_error_propagated .b64 (failClient "boom") ⟨importedData, (), []⟩
    "boom" ()).2.1 7 (by decide) rfl
  have hu := (remote_error_propagated .b64 (failClient "boom") ⟨importedData, (), []⟩
    "boom" ()).2.2 7 (by decide) rfl
  exact ⟨hc.1, hc.2.2 rfl, hr.1, hr.2, hu.1, hu.2⟩

/-- A run of claim C4: delete returns nil against a client whose delete call fails, as it
does against one whose delete call succeeds. -/
theorem delete_returns_nil_witness :
    (failClient "boom").IpamAggregatesDelete 7 () = (.error "boom", ()) ∧
    (resourceNetboxIpamAggregateDelete .b64 (failClient "boom") ⟨importedData, (), []⟩).1
      = .nil ∧
    (resourceNetboxIpamAggregateDelete .b64 (failClient "boom") ⟨importedData, (), []⟩).1
      = (resourceNetboxIpamAggregateDelete .b64 (constClient wideAggregate)
          ⟨importedData, (), []⟩).1 :=
  ⟨rfl, delete_returns_nil .b64 (failClient "boom") (constClient wideAggregate)
    ⟨importedData, (), []⟩ 7 (by decide)⟩

/-- A run of claim C5 on the identifier "abc". -/
theorem malformed_id_parse_error_witness :
    isDecimalText "abc" = false ∧
    ∃ e : NumError,
      Atoi .b64 "abc" = .error e ∧
      resourceNetboxIpamAggregateRead .b64 storeClient
        ⟨{ importedData with id := "abc" }, ⟨8, [(7, scenarioBody)]⟩, []⟩
        = (.err (.num e), ⟨{ importedData with id := "abc" }, ⟨8, [(7, scenarioBody)]⟩, []⟩) ∧
      resourceNetboxIpamAggregateUpdate .b64 storeClient
        ⟨{ importedData with id := "abc" }, ⟨8, [(7, scenarioBody)]⟩, []⟩
        = (.err (.num e), ⟨{ importedData with id := "abc" }, ⟨8, [(7, scenarioBody)]⟩, []⟩) ∧
      resourceNetboxIpamAggregateDelete .b64 storeClient
        ⟨{ importedData with id := "abc" }, ⟨8, [(7, scenarioBody)]⟩, []⟩
        = (.err (.num e), ⟨{ importedData with id := "abc" }, ⟨8, [(7, scenarioBody)]⟩, []⟩) :=
  ⟨by decide, malformed_id_parse_error .b64 storeClient
    ⟨{ importedData with id := "abc" }, ⟨8, [(7, scenarioBody)]⟩, []⟩ (by decide)⟩

/-- A run of claim C6 against the store: create hands the scenario body to the client (the
store then holds it under identifier 7), and update hands the same body to the client for
identifier 7 (the store then holds it twice under 7). -/
theorem create_update_request_bodies_witness :
    ((resourceNetboxIpamAggregateCreate .b64 storeClient
        ⟨scenarioData, ⟨7, []⟩, []⟩).2.calls = [Call.create scenarioBody] ∧
      (resourceNetboxIpamAggregateCreate .b64 storeClient
        ⟨scenarioData, ⟨7, []⟩, []⟩).2.remote = ⟨8, [(7, scenarioBody)]⟩ ∧
      (resourceNetboxIpamAggregateCreate .b64 storeClient
        ⟨scenarioData, ⟨7, []⟩, []⟩).1 = .nil) ∧
    Atoi .b64 "7" = .ok 7 ∧
    (resourceNetboxIpamAggregateUpdate .b64 storeClient
      ⟨{ scenarioData with id := "7" }, ⟨8, [(7, scenarioBody)]⟩, []⟩).2.calls
      = [Call.update 7 scenarioBody] ∧
    (resourceNetboxIpamAggregateUpdate .b64 storeClient
      ⟨{ scenarioData with id := "7" }, ⟨8, [(7, scenarioBody)]⟩, []⟩).2.remote
      = ⟨8, [(7, scenarioBody), (7, scenarioBody)]⟩ ∧
    (resourceNetboxIpamAggregateUpdate .b64 storeClient
      ⟨{ scenarioData with id := "7" }, ⟨8, [(7, scenarioBody)]⟩, []⟩).1 = .nil :=
  ⟨(create_update_request_bodies .b64 storeClient ⟨scenarioData, ⟨7, []⟩, []⟩).1,
   by decide,
   (create_update_request_bodies .b64 storeClient
      ⟨{ scenarioData with id := "7" }, ⟨8, [(7, scenarioBody)]⟩, []⟩).2 7 (by decide)⟩

/-- Claim C7, as stated, fails on a 32-bit build: 2147483648 is an `int64` value, and
`Itoa(int(2147483648))` parsed back is -2147483648. -/
theorem id_round_trip_fails_on_32_bit :
    isInt64 2147483648 ∧
    Itoa (toInt .b32 2147483648) = "-2147483648" ∧
    (Atoi .b32 (Itoa (toInt .b32 2147483648))).map int64OfInt = .ok (-2147483648) ∧
    (Atoi .b32 (Itoa (toInt .b32 2147483648))).map int64OfInt ≠ .ok 2147483648 := by
  decide

/-- A run of claim C7 on a 64-bit build at the largest `int64`. -/
theorem id_round_trip_witness :
    fitsInt .b64 9223372036854775807 ∧
    (Atoi .b64 (Itoa (toInt .b64 9223372036854775807))).map int64OfInt
      = .ok 9223372036854775807 :=
  ⟨by decide, id_round_trip .b64 9223372036854775807 (by decide)⟩

/-- Claim C8, as stated, fails on a 32-bit build: the store assigns identifier 2147483648,
create succeeds and stores "-2147483648", and the following read is refused by the store. -/
theorem create_then_read_fails_on_32_bit :
    (resourceNetboxIpamAggregateCreate .b32 storeClient
      ⟨scenarioData, ⟨2147483648, []⟩, []⟩).1 = .nil ∧
    (resourceNetboxIpamAggregateCreate .b32 storeClient
      ⟨scenarioData, ⟨2147483648, []⟩, []⟩).2.remote.rows = [(2147483648, scenarioBody)] ∧
    (resourceNetboxIpamAggregateRead .b32 storeClient
      (resourceNetboxIpamAggregateCreate .b32 storeClient
        ⟨scenarioData, ⟨2147483648, []⟩, []⟩).2).1 = .err (.remote "not found") := by
  decide

/-- A run of claim C8: the scenario `prefix="10.0.0.0/8", rir_id=1, description="test"`
against the store, on a 32-bit build with a small identifier. -/
theorem create_then_read_round_trip_witness :
    (resourceNetboxIpamAggregateCreate .b32 storeClient ⟨scenarioData, ⟨7, []⟩, []⟩).1
      = .nil ∧
    (resourceNetboxIpamAggregateRead .b32 storeClient
      (resourceNetboxIpamAggregateCreate .b32 storeClient ⟨scenarioData, ⟨7, []⟩, []⟩).2).1
      = .nil ∧
    (resourceNetboxIpamAggregateRead .b32 storeClient
      (resourceNetboxIpamAggregateCreate .b32 storeClient ⟨scenarioData, ⟨7, []⟩, []⟩).2).2.d
      = { scenarioData with id := "7" } := by
  have h := create_then_read_round_trip .b32 storeClient ⟨scenarioData, ⟨7, []⟩, []⟩
    (Store.report 7 scenarioBody) (Store.report 7 scenarioBody)
    ⟨8, [(7, scenarioBody)]⟩ ⟨8, [(7, scenarioBody)]⟩ rfl (by decide) ⟨rfl, rfl, rfl⟩
    (by decide) (by decide)
  exact ⟨h.1, h.2.1, by decide⟩

/-- Claim C10, as stated, fails on the identifier "abc": read returns the parse error and
has issued no remote call. -/
theorem read_issues_no_call_on_malformed_id :
    (resourceNetboxIpamAggregateRead .b64 storeClient
      ⟨{ importedData with id := "abc" }, ⟨8, [(7, scenarioBody)]⟩, []⟩).1
      = .err (.num ⟨"Atoi", "abc", .ErrSyntax⟩) ∧
    (resourceNetboxIpamAggregateRead .b64 storeClient
      ⟨{ importedData with id := "abc" }, ⟨8, [(7, scenarioBody)]⟩, []⟩).2.calls = [] ∧
    (resourceNetboxIpamAggregateRead .b64 storeClient
      ⟨{ importedData with id := "abc" }, ⟨8, [(7, scenarioBody)]⟩, []⟩).2.calls.length ≠ 1 := by
  decide

/-- A run of claim C10 against the store: with identifier "7" read issues the one call
`read 7` and delete the one call `delete 7` (after which the store is empty); with
identifier "abc", and with the out-of-range "9223372036854775808", update returns the
parse error and nothing else happens. -/
theorem one_remote_call_when_id_parses_witness :
    Atoi .b64 "7" = .ok 7 ∧
    ((resourceNetboxIpamAggregateRead .b64 storeClient
        ⟨importedData, ⟨8, [(7, scenarioBody)]⟩, []⟩).2.calls = [Call.read 7] ∧
      (resourceNetboxIpamAggregateRead .b64 storeClient
        ⟨importedData, ⟨8, [(7, scenarioBody)]⟩, []⟩).2.remote = ⟨8, [(7, scenarioBody)]⟩) ∧
    ((resourceNetboxIpamAggregateDelete .b64 storeClient
        ⟨importedData, ⟨8, [(7, scenarioBody)]⟩, []⟩).2.calls = [Call.delete 7] ∧
      (resourceNetboxIpamAggregateDelete .b64 storeClient
        ⟨importedData, ⟨8, [(7, scenarioBody)]⟩, []⟩).2.remote = ⟨8, []⟩) ∧
    resourceNetboxIpamAggregateUpdate .b64 storeClient
      ⟨{ importedData with id := "abc" }, ⟨8, [(7, scenarioBody)]⟩, []⟩
      = (.err (.num ⟨"Atoi", "abc", .ErrSyntax⟩),
          ⟨{ importedData with id := "abc" }, ⟨8, [(7, scenarioBody)]⟩, []⟩) ∧
    resourceNetboxIpamAggregateUpdate .b64 storeClient
      ⟨{ importedData with id := "9223372036854775808" }, ⟨8, [(7, scenarioBody)]⟩, []⟩
      = (.err (.num ⟨"Atoi", "9223372036854775808", .ErrRange⟩),
          ⟨{ importedData with id := "9223372036854775808" }, ⟨8, [(7, scenarioBody)]⟩, []⟩) := by
  have h1 := (one_remote_call_when_id_parses .b64 storeClient
    ⟨importedData, ⟨8, [(7, scenarioBody)]⟩, []⟩).2.1 7 (by decide)
  have h2 := (one_remote_call_when_id_parses .b64 storeClient
    ⟨{ importedData with id := "abc" }, ⟨8, [(7, scenarioBody)]⟩, []⟩).2.2
    ⟨"Atoi", "abc", .ErrSyntax⟩ (by decide)
  have h3 := (one_remote_call_when_id_parses .b64 storeClient
    ⟨{ importedData with id := "9223372036854775808" }, ⟨8, [(7, scenarioBody)]⟩, []⟩).2.2
    ⟨"Atoi", "9223372036854775808", .ErrRange⟩ (by decide)
  exact ⟨by decide, h1.1, h1.2.2, h2.2.1, h3.2.1⟩

end Netbox
